import Mathlib

/-!
Verification of the OCR annotation tool's interaction and annotation engine.

Shallow embedding of `src/src/App.jsx` (the multi-page iteration of the
application component, whose handlers the claims reference).  JavaScript
numbers are modelled as rationals (`ℚ`), pointer positions are taken
directly in image space (the source's `getMousePos` divides the client
coordinates by `scale` before any handler uses them), and the asynchronous
OCR request is split at its single suspension point into a synchronous
dispatch prefix (`runOcrStart`) and a completion (`runOcrComplete`).

Parts of the repository that are described by the specification but whose
source iteration is not included under `src/` (the corner-handle hit
tester and the move/resize half of the interaction state machine) are
modelled from the specification's own words; each such definition carries
a doc comment starting with `Modelled from the spec:`.
-/

namespace OcrTool

/-- Semantics of `Math.round` on a finite JS number: round half toward positive infinity. -/
def jsRound (q : ℚ) : ℤ := ⌊q + 1/2⌋

/-- A committed rectangle, fields as in the source's rect objects
`{ id, x, y, w, h, text, isOcrRunning }` (image-space coordinates). -/
structure Rect where
  id : ℕ
  x : ℚ
  y : ℚ
  w : ℚ
  h : ℚ
  text : String
  isOcrRunning : Bool
deriving DecidableEq, Repr

/-- The ephemeral rectangle built by `handleMouseMove` while dragging
(`{ x, y, w, h, id: 'temp' }`; its placeholder id never reaches the store,
so only the geometry is modelled). -/
structure EphemRect where
  x : ℚ
  y : ℚ
  w : ℚ
  h : ℚ
deriving DecidableEq, Repr

/-- A page: `{ id, file, src, name, rects, width, height }` in the source;
only the identity, the display name and the annotation list matter to the
annotation engine (the image bytes are owned externally). -/
structure Page where
  id : ℕ
  name : String
  rects : List Rect
deriving DecidableEq, Repr

/-- The component's state hooks.  `hasImage` models
`currentImageElem !== null`; `tesseractLoaded` models
`window.Tesseract` being available. -/
structure Session where
  pages : List Page
  currentPageIndex : ℤ
  hasImage : Bool
  scale : ℚ
  isDrawing : Bool
  startPos : ℚ × ℚ
  currentRect : Option EphemRect
  selectedRectId : Option ℕ
  isOcrEnabled : Bool
  tesseractLoaded : Bool
deriving DecidableEq, Repr

/-- Reading `pages[i]` under JS indexing: a negative or out-of-range index yields
`undefined`, modelled as `none`. -/
def pageAt (pages : List Page) (i : ℤ) : Option Page :=
  if 0 ≤ i then pages[i.toNat]? else none

/-- The `setRects` wrapper (App.jsx lines 516–534): rebuild `pages` with the
entry at `currentPageIndex` carrying `f` applied to its `rects`.  Every call
site runs with a displayed page, hence a valid index; on an invalid index the
JS would throw on `undefined.rects`, modelled as the identity. -/
def setRectsAt (pages : List Page) (i : ℤ) (f : List Rect → List Rect) : List Page :=
  match pageAt pages i with
  | none => pages
  | some p => pages.set i.toNat { p with rects := f p.rects }

/-- The derived `const rects = currentPage ? currentPage.rects : []` (line 513). -/
def displayedRects (s : Session) : List Rect :=
  match pageAt s.pages s.currentPageIndex with
  | some p => p.rects
  | none => []

/-- Handler `handleMouseDown` (lines 634–640): ignore when no image is displayed;
otherwise begin a draw gesture at the (image-space) position and clear the
selection. -/
def handleMouseDown (s : Session) (pos : ℚ × ℚ) : Session :=
  if s.hasImage then
    { s with isDrawing := true, startPos := pos, selectedRectId := none }
  else s

/-- Handler `handleMouseMove` (lines 642–653): while drawing, replace the ephemeral
rectangle with the normalized bounding box of the start point and the
current point. -/
def handleMouseMove (s : Session) (pos : ℚ × ℚ) : Session :=
  if s.isDrawing then
    { s with currentRect := (some
        { x := min s.startPos.1 pos.1,
          y := min s.startPos.2 pos.2,
          w := |pos.1 - s.startPos.1|,
          h := |pos.2 - s.startPos.2| }) }
  else s

/-- The synchronous prefix of `runOcr` (lines 655–659), up to the `await`:
bail out unless the engine is loaded, OCR is enabled and an image is
present; otherwise mark the target rectangle (if it still exists on the
current page) as running. -/
def runOcrStart (s : Session) (rectItem : Rect) : Session :=
  if s.tesseractLoaded && s.isOcrEnabled && s.hasImage then
    { s with pages := (setRectsAt s.pages s.currentPageIndex
        (List.map fun r => if r.id = rectItem.id then { r with isOcrRunning := true } else r)) }
  else s

/-- Outcome of the awaited `Tesseract.recognize` call. -/
inductive OcrOutcome where
  | success (raw : String)
  | failure
deriving DecidableEq, Repr

/-- The per-rectangle write performed by `runOcr`'s continuation
(lines 681–687): on success `text := raw.trim`, on failure
`text := "Error"`, in both cases `isOcrRunning := false`; other ids
untouched. -/
def ocrWrite (rid : ℕ) (out : OcrOutcome) (r : Rect) : Rect :=
  if r.id = rid then
    match out with
    | .success raw => { r with text := raw.trim, isOcrRunning := false }
    | .failure => { r with text := "Error", isOcrRunning := false }
  else r

/-- Continuation of `runOcr` after the `await`: the captured `setRects`
closure indexes `pages` with the page index captured at dispatch time
(`originIdx`), while reading the then-current `pages` array through the
functional updater. -/
def runOcrComplete (pages : List Page) (originIdx : ℤ) (rid : ℕ) (out : OcrOutcome) :
    List Page :=
  setRectsAt pages originIdx (List.map (ocrWrite rid out))

/-- Handler `handleMouseUp` (lines 691–712) together with the synchronous prefix
of the `runOcr(newRect)` call it makes: when drawing ends with an ephemeral
rectangle strictly larger than 5×5, append a committed rectangle with the
fresh id `now` (`Date.now()`), empty text and `isOcrRunning = false`, then
run `runOcr` on it; otherwise just discard the ephemeral rectangle.
Returns the new state and the committed rectangle, when one was made. -/
def handleMouseUp (s : Session) (now : ℕ) : Session × Option Rect :=
  if s.isDrawing then
    let s1 := { s with isDrawing := false }
    match s1.currentRect with
    | some c =>
      if c.w > 5 ∧ c.h > 5 then
        let newRect : Rect := { id := now, x := c.x, y := c.y, w := c.w, h := c.h,
                                text := "", isOcrRunning := false }
        let s2 := { s1 with
          pages := setRectsAt s1.pages s1.currentPageIndex (fun rs => rs ++ [newRect]),
          currentRect := none }
        (runOcrStart s2 newRect, some newRect)
      else ({ s1 with currentRect := none }, none)
    | none => ({ s1 with currentRect := none }, none)
  else (s, none)

/-- Handler `handleDeleteRect` (lines 715–717): drop the matching id from the
current page's rects.  (The source touches no other state hook here.) -/
def handleDeleteRect (s : Session) (id : ℕ) : Session :=
  { s with pages := (setRectsAt s.pages s.currentPageIndex
      (List.filter fun r => r.id ≠ id)) }

/-- Handler `handleTextChange` (lines 719–721): rewrite the text of the matching id
on the current page. -/
def handleTextChange (s : Session) (id : ℕ) (newText : String) : Session :=
  { s with pages := (setRectsAt s.pages s.currentPageIndex
      (List.map fun r => if r.id = id then { r with text := newText } else r)) }

/-- Handler `handlePrevPage` (lines 775–778): `Math.max(0, prev - 1)` and clear the
selection. -/
def handlePrevPage (s : Session) : Session :=
  { s with currentPageIndex := max 0 (s.currentPageIndex - 1), selectedRectId := none }

/-- Handler `handleNextPage` (lines 780–783): `Math.min(pages.length - 1, prev + 1)`
and clear the selection. -/
def handleNextPage (s : Session) : Session :=
  { s with currentPageIndex := min ((s.pages.length : ℤ) - 1) (s.currentPageIndex + 1),
           selectedRectId := none }

/-- Handler `handleZoomStep` (lines 767–772): add the step and clamp to
`[0.1, 5.0]`. -/
def handleZoomStep (s : Session) (step : ℚ) : Session :=
  { s with scale := min (max (1/10) (s.scale + step)) 5 }

/-- Handler `handleZoomSlider` (lines 763–765): the range input supplies a value in
`[0.1, 3.0]`. -/
def handleZoomSlider (s : Session) (v : ℚ) : Session :=
  { s with scale := v }

/-- Handler `handleImageUpload` (lines 537–558): append one fresh page per file
(each with empty `rects`); on the first upload also reset the page index
and the zoom. -/
def handleImageUpload (s : Session) (files : List (ℕ × String)) : Session :=
  if files = [] then s
  else
    let newPages := files.map fun f => Page.mk f.1 f.2 []
    let s1 := { s with pages := s.pages ++ newPages }
    if s.pages.length = 0 then { s1 with currentPageIndex := 0, scale := 1 } else s1

/-- The sidebar's `onClick={() => setSelectedRectId(rect.id)}` (line 969). -/
def selectRect (s : Session) (id : ℕ) : Session :=
  { s with selectedRectId := some id }

/-- Toggling via `setIsOcrEnabled(!isOcrEnabled)` (line 864). -/
def toggleOcr (s : Session) : Session :=
  { s with isOcrEnabled := !s.isOcrEnabled }

/-- The image-element effect (lines 561–581): the asynchronous load (or a
switch to a missing page) changes whether a current image is displayed. -/
def setImageLoaded (s : Session) (b : Bool) : Session :=
  { s with hasImage := b }

/-- The Tesseract CDN loader's `onload` (lines 472–488). -/
def tesseractReady (s : Session) : Session :=
  { s with tesseractLoaded := true }

/-! ## JSON export -/

/-- A JSON value, as assembled by `JSON.stringify`'s argument. -/
inductive Json where
  | str (v : String)
  | num (v : ℤ)
  | arr (elems : List Json)
  | obj (fields : List (String × Json))

/-- First field of an object with the given key, `none` on a non-object or
a missing key. -/
def Json.lookup : Json → String → Option Json
  | .obj fields, k => (fields.find? fun f => f.1 = k).map Prod.snd
  | _, _ => none

/-- One element of the exported `annotations` array (lines 745–752):
`{ id, x: Math.round(r.x), y: Math.round(r.y), width: Math.round(r.w),
height: Math.round(r.h), text: r.text }`. -/
def exportRectJson (r : Rect) : Json :=
  .obj [("id", .num r.id), ("x", .num (jsRound r.x)), ("y", .num (jsRound r.y)),
        ("width", .num (jsRound r.w)), ("height", .num (jsRound r.h)),
        ("text", .str r.text)]

/-- Handler `handleExportJSON` (lines 737–760): a no-op without a current page;
otherwise the serialized document `{ image: currentPage.name,
annotations: [...] }` for the current page only. -/
def handleExportJSON (s : Session) : Option Json :=
  match pageAt s.pages s.currentPageIndex with
  | none => none
  | some p => some (.obj [("image", .str p.name),
      ("annotations", .arr (p.rects.map exportRectJson))])

/-! ## Hit testing and the move/resize half of the state machine

The repository iteration carrying these (the spec's §4.2 hit tester and the
`MOVING`/`RESIZING` rows of §4.3) is not included under `src/`; the
definitions below are modelled from the specification. -/

/-- Modelled from the spec: the four corner handles of §4.2, in the fixed
test order `tl, tr, bl, br`. -/
inductive Handle where
  | tl
  | tr
  | bl
  | br
deriving DecidableEq, Repr

/-- Modelled from the spec: the handle touch-target constant named
`HANDLE_SIZE` in §4.2.  The spec does not fix its numeric value (the source
carrying it is absent); the theorems do not depend on the choice. -/
def HANDLE_SIZE : ℚ := 8

/-- Modelled from the spec: §4.2's handle test — a point matches a corner
handle when both axis distances are within `HANDLE_SIZE / scale`; candidates
are tested in the fixed order `tl, tr, bl, br` and the first match wins. -/
def handleHit (p : ℚ × ℚ) (r : Rect) (scale : ℚ) : Option Handle :=
  let t := HANDLE_SIZE / scale
  if |p.1 - r.x| ≤ t ∧ |p.2 - r.y| ≤ t then some .tl
  else if |p.1 - (r.x + r.w)| ≤ t ∧ |p.2 - r.y| ≤ t then some .tr
  else if |p.1 - r.x| ≤ t ∧ |p.2 - (r.y + r.h)| ≤ t then some .bl
  else if |p.1 - (r.x + r.w)| ≤ t ∧ |p.2 - (r.y + r.h)| ≤ t then some .br
  else none

/-- Modelled from the spec: §4.2's interior test — the point lies within the
closed rectangle `[x, x+w] × [y, y+h]`. -/
def containsPoint (r : Rect) (p : ℚ × ℚ) : Bool :=
  decide (r.x ≤ p.1 ∧ p.1 ≤ r.x + r.w ∧ r.y ≤ p.2 ∧ p.2 ≤ r.y + r.h)

/-- Modelled from the spec: §4.2's topmost-rect selection — candidates are
scanned in reverse creation order, most recently drawn first. -/
def topmostHit (p : ℚ × ℚ) (rects : List Rect) : Option Rect :=
  rects.reverse.find? (fun r => containsPoint r p)

/-- Modelled from the spec: the mode component of §4.3's interaction state
machine, with the data each active mode records. -/
inductive Mode where
  | idle
  | drawing
  | moving (dragOffset : ℚ × ℚ)
  | resizing (h : Handle)
deriving DecidableEq, Repr

/-- Modelled from the spec: the state the §4.3 machine acts on — the current
page's rectangles, the selection, the mode and the recorded gesture start
point. -/
structure IState where
  rects : List Rect
  selectedRectId : Option ℕ
  mode : Mode
  startPos : ℚ × ℚ
deriving DecidableEq, Repr

/-- The currently selected rectangle, when the selection refers to one;
handles are only exposed on it (§4.2). -/
def selectedRect (st : IState) : Option Rect :=
  match st.selectedRectId with
  | some sid => st.rects.find? (fun r => r.id = sid)
  | none => none

/-- Modelled from the spec: the three `IDLE`∘`down` rows of §4.3 — enter
`RESIZING` recording the handle when the point hits a handle of the selected
rectangle; else enter `MOVING` on the topmost rectangle containing the
point, selecting it and recording `dragOffset = point − rect.origin`; else
enter `DRAWING`, clearing the selection and recording the start point. -/
def specMouseDown (st : IState) (p : ℚ × ℚ) (scale : ℚ) : IState :=
  if st.mode = .idle then
    match (selectedRect st).bind (fun sel => handleHit p sel scale) with
    | some h => { st with mode := .resizing h }
    | none =>
      match topmostHit p st.rects with
      | some r =>
        { st with mode := .moving (p.1 - r.x, p.2 - r.y), selectedRectId := some r.id }
      | none => { st with mode := .drawing, selectedRectId := none, startPos := p }
  else st

/-- Modelled from the spec: §4.3's `RESIZING`∘`move` row applied to one
rectangle — each edge addressed by the active handle is evaluated
independently; a candidate width or height is applied only when strictly
greater than 5, the handle's `left`/`top` variants also moving `x`/`y`. -/
def specResizeMove (r : Rect) (h : Handle) (p : ℚ × ℚ) : Rect :=
  let r1 :=
    match h with
    | .tl | .bl =>
      let cw := (r.x + r.w) - p.1
      if cw > 5 then { r with x := p.1, w := cw } else r
    | .tr | .br =>
      let cw := p.1 - r.x
      if cw > 5 then { r with w := cw } else r
  match h with
  | .tl | .tr =>
    let ch := (r1.y + r1.h) - p.2
    if ch > 5 then { r1 with y := p.2, h := ch } else r1
  | .bl | .br =>
    let ch := p.2 - r1.y
    if ch > 5 then { r1 with h := ch } else r1

/-- Modelled from the spec: §4.3's `MOVING`∘`move` row applied to the
session — the dragged rectangle's origin becomes `point − dragOffset`
(no clamping to the image bounds). -/
def specMoveRect (s : Session) (id : ℕ) (p dragOffset : ℚ × ℚ) : Session :=
  { s with pages := (setRectsAt s.pages s.currentPageIndex
      (List.map fun r =>
        if r.id = id then { r with x := p.1 - dragOffset.1, y := p.2 - dragOffset.2 }
        else r)) }

/-- Modelled from the spec: §4.3's `RESIZING`∘`move` row applied to the
session — `specResizeMove` on the rectangle carrying the active handle. -/
def specResizeRect (s : Session) (id : ℕ) (h : Handle) (p : ℚ × ℚ) : Session :=
  { s with pages := (setRectsAt s.pages s.currentPageIndex
      (List.map fun r => if r.id = id then specResizeMove r h p else r)) }

/-! ## The session's step relation and reachability -/

/-- One event of the single-threaded event loop: a pointer event, a sidebar
or toolbar action, an upload, the resumption of an OCR continuation (with
its captured origin index), an engine/image readiness change, or one of the
spec-modelled move/resize pointer-move effects. -/
inductive Step : Session → Session → Prop where
  | mouseDown (s : Session) (pos : ℚ × ℚ) : Step s (handleMouseDown s pos)
  | mouseMove (s : Session) (pos : ℚ × ℚ) : Step s (handleMouseMove s pos)
  | mouseUp (s : Session) (now : ℕ) : Step s (handleMouseUp s now).1
  | ocrDone (s : Session) (i : ℤ) (rid : ℕ) (out : OcrOutcome) :
      Step s { s with pages := runOcrComplete s.pages i rid out }
  | deleteRect (s : Session) (id : ℕ) : Step s (handleDeleteRect s id)
  | textChange (s : Session) (id : ℕ) (txt : String) : Step s (handleTextChange s id txt)
  | prevPage (s : Session) : Step s (handlePrevPage s)
  | nextPage (s : Session) : Step s (handleNextPage s)
  | zoomStep (s : Session) (d : ℚ) : Step s (handleZoomStep s d)
  | zoomSlider (s : Session) (v : ℚ) : Step s (handleZoomSlider s v)
  | upload (s : Session) (files : List (ℕ × String)) : Step s (handleImageUpload s files)
  | select (s : Session) (id : ℕ) : Step s (selectRect s id)
  | toggle (s : Session) : Step s (toggleOcr s)
  | imgLoad (s : Session) (b : Bool) : Step s (setImageLoaded s b)
  | tessReady (s : Session) : Step s (tesseractReady s)
  | moveRect (s : Session) (id : ℕ) (p dragOffset : ℚ × ℚ) :
      Step s (specMoveRect s id p dragOffset)
  | resizeRect (s : Session) (id : ℕ) (h : Handle) (p : ℚ × ℚ) :
      Step s (specResizeRect s id h p)

/-- The empty session the component mounts with (the `useState` initial
values). -/
def initSession : Session :=
  { pages := [], currentPageIndex := 0, hasImage := false, scale := 1,
    isDrawing := false, startPos := (0, 0), currentRect := none,
    selectedRectId := none, isOcrEnabled := true, tesseractLoaded := false }

/-- States the event loop can reach from a fresh mount. -/
inductive Reachable : Session → Prop where
  | init : Reachable initSession
  | step {s s' : Session} : Reachable s → Step s s' → Reachable s'

/-- The core sizing invariant: every committed rectangle on every page is
strictly larger than 5×5. -/
def SizeInv (s : Session) : Prop :=
  ∀ p ∈ s.pages, ∀ r ∈ p.rects, 5 < r.w ∧ 5 < r.h

/-! ### Concrete fixtures used to evaluate the theorems on closed inputs -/

/-- A page holding one committed rectangle with id 5 and text `"hi"`. -/
def pageA : Page := ⟨1, "a.png", [⟨5, 10, 10, 100, 50, "hi", false⟩]⟩

/-- A page holding one rectangle with an OCR request outstanding. -/
def pageRun : Page := ⟨1, "a.png", [⟨5, 10, 10, 100, 50, "", true⟩]⟩

/-- A second, empty page. -/
def pageB : Page := ⟨2, "b.png", []⟩

/-- A session displaying `pageA` with the engine loaded. -/
def sessionA : Session :=
  { initSession with pages := [pageA], hasImage := true, tesseractLoaded := true }

/-- A two-page session on page 0, with page 0's rectangle awaiting OCR. -/
def sessionTwo : Session :=
  { initSession with pages := [pageRun, pageB], hasImage := true, tesseractLoaded := true }

/-- A drawing-in-progress session whose ephemeral rectangle is large enough
to commit (20×30). -/
def sessionDraw : Session :=
  { initSession with
    pages := [⟨1, "a.png", []⟩], hasImage := true,
    tesseractLoaded := true, isDrawing := true, currentRect := some ⟨10, 10, 20, 30⟩ }

/-- A drawing-in-progress session mid-gesture, used for the pointer-move and
page-switch fixtures; the selection id 9 is deliberately dangling-free on
page 0. -/
def sessionMid : Session :=
  { initSession with
    pages := [⟨1, "a.png", []⟩, pageB], hasImage := true,
    tesseractLoaded := true, isDrawing := true, startPos := (10, 10),
    currentRect := some ⟨1, 2, 3, 4⟩, selectedRectId := some 9 }

/-- Variant of `sessionA` with its only rectangle selected. -/
def sessionSel : Session :=
  { sessionA with selectedRectId := some 5 }

/-- A page with the two rectangles of the spec's export Scenario D
(fractional coordinates; one empty text). -/
def pageD : Page :=
  ⟨1, "page1.png", [⟨1, 10.4, 9.6, 100.2, 50, "Hi", false⟩, ⟨2, 20, 20, 30, 30, "", false⟩]⟩

/-- A session displaying `pageD`. -/
def sessionD : Session :=
  { initSession with pages := [pageD], hasImage := true }

/-- An interaction-machine state over `pageA`'s rectangle, idle and with
nothing selected. -/
def istateA : IState :=
  { rects := [⟨5, 10, 10, 100, 50, "hi", false⟩], selectedRectId := none,
    mode := .idle, startPos := (0, 0) }

/-! ### Helper lemmas about `setRectsAt` and the individual writes -/

theorem pageAt_mem {pages : List Page} {i : ℤ} {p : Page}
    (h : pageAt pages i = some p) : p ∈ pages := by
  unfold pageAt at h
  split at h
  · exact List.getElem?_mem h
  · cases h

theorem setRectsAt_pres {P : Rect → Prop} {pages : List Page} {i : ℤ}
    {f : List Rect → List Rect}
    (hp : ∀ p ∈ pages, ∀ r ∈ p.rects, P r)
    (hf : ∀ l, (∀ r ∈ l, P r) → ∀ r ∈ f l, P r) :
    ∀ p ∈ setRectsAt pages i f, ∀ r ∈ p.rects, P r := by
  intro p hmem r hr
  unfold setRectsAt at hmem
  cases hq : pageAt pages i with
  | none => rw [hq] at hmem; exact hp p hmem r hr
  | some q =>
    rw [hq] at hmem
    rcases List.mem_or_eq_of_mem_set hmem with h | h
    · exact hp p h r hr
    · subst h
      exact hf q.rects (hp q (pageAt_mem hq)) r hr

theorem map_pres {P : Rect → Prop} {g : Rect → Rect}
    (hg : ∀ r, P r → P (g r)) :
    ∀ l : List Rect, (∀ r ∈ l, P r) → ∀ r ∈ l.map g, P r := by
  intro l hl r hr
  rcases List.mem_map.mp hr with ⟨a, ha, rfl⟩
  exact hg a (hl a ha)

theorem ocrWrite_w (rid : ℕ) (out : OcrOutcome) (r : Rect) :
    (ocrWrite rid out r).w = r.w ∧ (ocrWrite rid out r).h = r.h := by
  unfold ocrWrite
  split
  · cases out <;> exact ⟨rfl, rfl⟩
  · exact ⟨rfl, rfl⟩

theorem specResizeMove_size {r : Rect} (h : Handle) (p : ℚ × ℚ)
    (hw : 5 < r.w) (hh : 5 < r.h) :
    5 < (specResizeMove r h p).w ∧ 5 < (specResizeMove r h p).h := by
  unfold specResizeMove
  cases h <;> dsimp only <;> split <;> split <;> simp_all

/-- The `pages` component is untouched by the handlers that only write other
hooks. -/
theorem pages_frame (s : Session) (pos : ℚ × ℚ) (d v : ℚ) (id : ℕ) (b : Bool) :
    (handleMouseDown s pos).pages = s.pages ∧
    (handleMouseMove s pos).pages = s.pages ∧
    (handlePrevPage s).pages = s.pages ∧
    (handleNextPage s).pages = s.pages ∧
    (handleZoomStep s d).pages = s.pages ∧
    (handleZoomSlider s v).pages = s.pages ∧
    (selectRect s id).pages = s.pages ∧
    (toggleOcr s).pages = s.pages ∧
    (setImageLoaded s b).pages = s.pages ∧
    (tesseractReady s).pages = s.pages := by
  unfold handleMouseDown handleMouseMove handlePrevPage handleNextPage
    handleZoomStep handleZoomSlider selectRect toggleOcr setImageLoaded tesseractReady
  refine ⟨?_, ?_, rfl, rfl, rfl, rfl, rfl, rfl, rfl, rfl⟩ <;> split <;> rfl

theorem sizeInv_of_pages_eq {s s' : Session} (h : s'.pages = s.pages)
    (hs : SizeInv s) : SizeInv s' := by
  intro p hp
  rw [h] at hp
  exact hs p hp

/-- The rects function applied by a commit: append the freshly built
rectangle. -/
theorem commit_append_pres {P : Rect → Prop} (nr : Rect) (hnr : P nr) :
    ∀ l : List Rect, (∀ r ∈ l, P r) → ∀ r ∈ l ++ [nr], P r := by
  intro l hl r hr
  rcases List.mem_append.mp hr with h | h
  · exact hl r h
  · rcases List.mem_singleton.mp h with rfl
    exact hnr

theorem stepPreservesSizeInv {s s' : Session} (hstep : Step s s') (hs : SizeInv s) :
    SizeInv s' := by
  cases hstep with
  | mouseDown pos => exact sizeInv_of_pages_eq (pages_frame s pos 0 0 0 false).1 hs
  | mouseMove pos => exact sizeInv_of_pages_eq (pages_frame s pos 0 0 0 false).2.1 hs
  | prevPage => exact sizeInv_of_pages_eq (pages_frame s (0, 0) 0 0 0 false).2.2.1 hs
  | nextPage => exact sizeInv_of_pages_eq (pages_frame s (0, 0) 0 0 0 false).2.2.2.1 hs
  | zoomStep d => exact sizeInv_of_pages_eq (pages_frame s (0, 0) d 0 0 false).2.2.2.2.1 hs
  | zoomSlider v =>
    exact sizeInv_of_pages_eq (pages_frame s (0, 0) 0 v 0 false).2.2.2.2.2.1 hs
  | select id =>
    exact sizeInv_of_pages_eq (pages_frame s (0, 0) 0 0 id false).2.2.2.2.2.2.1 hs
  | toggle =>
    exact sizeInv_of_pages_eq (pages_frame s (0, 0) 0 0 0 false).2.2.2.2.2.2.2.1 hs
  | imgLoad b =>
    exact sizeInv_of_pages_eq (pages_frame s (0, 0) 0 0 0 b).2.2.2.2.2.2.2.2.1 hs
  | tessReady =>
    exact sizeInv_of_pages_eq (pages_frame s (0, 0) 0 0 0 false).2.2.2.2.2.2.2.2.2 hs
  | ocrDone i rid out =>
    intro p hp
    refine setRectsAt_pres hs ?_ p hp
    intro l hl
    exact map_pres (fun r hr => by
      rcases ocrWrite_w rid out r with ⟨h1, h2⟩
      rw [h1, h2]; exact hr) l hl
  | deleteRect id =>
    intro p hp
    refine setRectsAt_pres hs ?_ p hp
    intro l hl r hr
    exact hl r (List.mem_of_mem_filter hr)
  | textChange id txt =>
    intro p hp
    refine setRectsAt_pres hs ?_ p hp
    intro l hl
    exact map_pres (fun r hr => by
      split
      · exact hr
      · exact hr) l hl
  | upload files =>
    intro p hp r hr
    unfold handleImageUpload at hp
    split at hp
    · exact hs p hp r hr
    · have hmem : p ∈ s.pages ++ files.map fun f => Page.mk f.1 f.2 [] := by
        split at hp <;> simpa using hp
      rcases List.mem_append.mp hmem with h | h
      · exact hs p h r hr
      · rcases List.mem_map.mp h with ⟨f, _, rfl⟩
        cases hr
  | moveRect id p dragOffset =>
    intro q hq
    refine setRectsAt_pres hs ?_ q hq
    intro l hl
    exact map_pres (fun r hr => by
      split
      · exact hr
      · exact hr) l hl
  | resizeRect id h p =>
    intro q hq
    refine setRectsAt_pres hs ?_ q hq
    intro l hl
    exact map_pres (fun r hr => by
      split
      · exact specResizeMove_size h p hr.1 hr.2
      · exact hr) l hl
  | mouseUp now =>
    intro p hp
    unfold handleMouseUp runOcrStart at hp
    split at hp
    · dsimp only at hp
      split at hp
      · split at hp
        · rename_i c hc
          split at hp
          · refine setRectsAt_pres (P := fun r => 5 < r.w ∧ 5 < r.h) ?_ ?_ p hp
            · exact setRectsAt_pres hs
                (commit_append_pres _ ⟨hc.1, hc.2⟩)
            · intro l hl
              exact map_pres (fun r hr => by
                split
                · exact hr
                · exact hr) l hl
          · exact setRectsAt_pres hs (commit_append_pres _ ⟨hc.1, hc.2⟩) p hp
        · exact hs p hp
      · exact hs p hp
    · exact hs p hp

/-! ### Characterizing `pageAt` after a store update -/

theorem pageAt_setRectsAt (pages : List Page) (i j : ℤ) (f : List Rect → List Rect) :
    pageAt (setRectsAt pages i f) j =
      if j = i then (pageAt pages j).map (fun p => { p with rects := f p.rects })
      else pageAt pages j := by
  cases hq : pageAt pages i with
  | none =>
    simp only [setRectsAt, hq]
    by_cases hji : j = i
    · rw [if_pos hji, hji, hq]
      rfl
    · rw [if_neg hji]
  | some q =>
    have hi : 0 ≤ i := by
      by_contra hneg
      simp only [pageAt, if_neg hneg] at hq
      exact Option.noConfusion hq
    have hq' : pages[i.toNat]? = some q := by
      simpa only [pageAt, if_pos hi] using hq
    have hlen : i.toNat < pages.length := by
      rcases List.getElem?_eq_some_iff.mp hq' with ⟨h, _⟩
      exact h
    simp only [setRectsAt, hq]
    by_cases hji : j = i
    · subst hji
      rw [if_pos rfl, hq]
      unfold pageAt
      rw [if_pos hi, List.getElem?_set_self hlen]
      rfl
    · rw [if_neg hji]
      unfold pageAt
      by_cases hj : 0 ≤ j
      · rw [if_pos hj, if_pos hj]
        have hne : i.toNat ≠ j.toNat := by omega
        rw [List.getElem?_set_ne hne]
      · rw [if_neg hj, if_neg hj]

theorem pageAt_valid {pages : List Page} {i : ℤ} (h0 : 0 ≤ i)
    (hlt : i < (pages.length : ℤ)) : ∃ q, pageAt pages i = some q := by
  refine ⟨pages[i.toNat], ?_⟩
  unfold pageAt
  rw [if_pos h0]
  exact List.getElem?_eq_getElem (by omega)

theorem pageAt_append_left {pages : List Page} {i : ℤ} {p : Page}
    (h : pageAt pages i = some p) (l2 : List Page) :
    pageAt (pages ++ l2) i = some p := by
  unfold pageAt at h ⊢
  split at h
  · rename_i hi
    rw [if_pos hi]
    have hlen : i.toNat < pages.length := by
      rcases List.getElem?_eq_some_iff.mp h with ⟨hh, _⟩
      exact hh
    rw [List.getElem?_append_left hlen]
    exact h
  · cases h

/-- Each step keeps any existing page slot populated by a page with the same
identity: pages are only ever appended or have their `rects` rewritten in
place, never removed or reordered. -/
theorem step_pageAt_mono {s s' : Session} (hstep : Step s s') (j : ℤ) (p : Page)
    (hp : pageAt s.pages j = some p) :
    ∃ q, pageAt s'.pages j = some q ∧ q.id = p.id ∧ q.name = p.name := by
  have frame : ∀ t : Session, t.pages = s.pages →
      ∃ q, pageAt t.pages j = some q ∧ q.id = p.id ∧ q.name = p.name := by
    intro t ht
    exact ⟨p, by rw [ht]; exact hp, rfl, rfl⟩
  have viaSet : ∀ (i : ℤ) (f : List Rect → List Rect) (t : Session),
      t.pages = setRectsAt s.pages i f →
      ∃ q, pageAt t.pages j = some q ∧ q.id = p.id ∧ q.name = p.name := by
    intro i f t ht
    rw [ht, pageAt_setRectsAt]
    split
    · exact ⟨{ p with rects := f p.rects }, by rw [hp]; rfl, rfl, rfl⟩
    · exact ⟨p, hp, rfl, rfl⟩
  cases hstep with
  | mouseDown pos => exact frame _ (pages_frame s pos 0 0 0 false).1
  | mouseMove pos => exact frame _ (pages_frame s pos 0 0 0 false).2.1
  | prevPage => exact frame _ (pages_frame s (0, 0) 0 0 0 false).2.2.1
  | nextPage => exact frame _ (pages_frame s (0, 0) 0 0 0 false).2.2.2.1
  | zoomStep d => exact frame _ (pages_frame s (0, 0) d 0 0 false).2.2.2.2.1
  | zoomSlider v => exact frame _ (pages_frame s (0, 0) 0 v 0 false).2.2.2.2.2.1
  | select id => exact frame _ (pages_frame s (0, 0) 0 0 id false).2.2.2.2.2.2.1
  | toggle => exact frame _ (pages_frame s (0, 0) 0 0 0 false).2.2.2.2.2.2.2.1
  | imgLoad b => exact frame _ (pages_frame s (0, 0) 0 0 0 b).2.2.2.2.2.2.2.2.1
  | tessReady => exact frame _ (pages_frame s (0, 0) 0 0 0 false).2.2.2.2.2.2.2.2.2
  | ocrDone i rid out => exact viaSet i _ _ rfl
  | deleteRect id => exact viaSet s.currentPageIndex _ _ rfl
  | textChange id txt => exact viaSet s.currentPageIndex _ _ rfl
  | moveRect id pt off => exact viaSet s.currentPageIndex _ _ rfl
  | resizeRect id h pt => exact viaSet s.currentPageIndex _ _ rfl
  | upload files =>
    unfold handleImageUpload
    split
    · exact ⟨p, hp, rfl, rfl⟩
    · have happ : pageAt (s.pages ++ files.map fun f => Page.mk f.1 f.2 []) j = some p :=
        pageAt_append_left hp _
      split
      · exact ⟨p, happ, rfl, rfl⟩
      · exact ⟨p, happ, rfl, rfl⟩
  | mouseUp now =>
    unfold handleMouseUp runOcrStart
    split
    · dsimp only
      split
      · split
        · split
          · rename_i c hc heq hguard
            rw [pageAt_setRectsAt]
            split
            · rename_i hji
              subst hji
              rw [pageAt_setRectsAt, if_pos rfl, hp]
              exact ⟨_, rfl, rfl, rfl⟩
            · rw [pageAt_setRectsAt]
              split
              · rename_i hji
                subst hji
                rw [hp]
                exact ⟨_, rfl, rfl, rfl⟩
              · exact ⟨p, hp, rfl, rfl⟩
          · rw [pageAt_setRectsAt]
            split
            · rename_i hji
              subst hji
              rw [hp]
              exact ⟨_, rfl, rfl, rfl⟩
            · exact ⟨p, hp, rfl, rfl⟩
        · exact ⟨p, hp, rfl, rfl⟩
      · exact ⟨p, hp, rfl, rfl⟩
    · exact ⟨p, hp, rfl, rfl⟩

/-- Lemma `step_pageAt_mono`, closed under any number of interleaved events. -/
theorem steps_pageAt_mono {s s' : Session} (hsteps : Relation.ReflTransGen Step s s')
    (j : ℤ) (p : Page) (hp : pageAt s.pages j = some p) :
    ∃ q, pageAt s'.pages j = some q ∧ q.id = p.id ∧ q.name = p.name := by
  induction hsteps with
  | refl => exact ⟨p, hp, rfl, rfl⟩
  | tail _ hstep ih =>
    rcases ih with ⟨q, hq, hid, hname⟩
    rcases step_pageAt_mono hstep j q hq with ⟨q', hq', hid', hname'⟩
    exact ⟨q', hq', hid'.trans hid, hname'.trans hname⟩

theorem map_eq_self_of_mem {α : Type} {f : α → α} :
    ∀ {l : List α}, (∀ x ∈ l, f x = x) → l.map f = l
  | [], _ => rfl
  | x :: xs, h => by
    rw [List.map_cons, h x (List.mem_cons_self x xs),
      map_eq_self_of_mem (fun y hy => h y (List.mem_cons_of_mem x hy))]

theorem set_self {α : Type} : ∀ {l : List α} {n : ℕ} {a : α},
    l[n]? = some a → l.set n a = l
  | [], n, a, h => by cases h
  | x :: xs, 0, a, h => by
    simp only [List.getElem?_cons_zero, Option.some_inj] at h
    rw [List.set_cons_zero, h]
  | x :: xs, n + 1, a, h => by
    simp only [List.getElem?_cons_succ] at h
    rw [List.set_cons_succ, set_self h]

/-- A store update whose rects function fixes the target page's rects is the
identity on `pages`. -/
theorem setRectsAt_noop {pages : List Page} {i : ℤ} {f : List Rect → List Rect}
    (h : ∀ q, pageAt pages i = some q → f q.rects = q.rects) :
    setRectsAt pages i f = pages := by
  cases hq : pageAt pages i with
  | none => simp only [setRectsAt, hq]
  | some q =>
    simp only [setRectsAt, hq]
    have hfix : { q with rects := f q.rects } = q := by
      rw [h q hq]
    rw [hfix]
    have hi : 0 ≤ i := by
      by_contra hneg
      simp only [pageAt, if_neg hneg] at hq
      exact Option.noConfusion hq
    have hq' : pages[i.toNat]? = some q := by
      simpa only [pageAt, if_pos hi] using hq
    exact set_self hq'

/-! ## The claims -/

/-- C2: For every reachable session state, every committed rectangle on
every page satisfies `w > 5` and `h > 5`, at every point of its lifetime:
commit requires strict `> 5`, OCR dispatch and completion and text edits
leave geometry alone, delete only removes, upload adds empty pages, and the
(spec-modelled) move preserves `w, h` while the (spec-modelled) resize
rejects any edge move that would bring a dimension to `≤ 5`. -/
theorem size_invariant_reachable (s : Session) (h : Reachable s) : SizeInv s := by
  induction h with
  | init => intro p hp; cases hp
  | step _ hstep ih => exact stepPreservesSizeInv hstep ih

/-- Witness for C2: the invariant at a concretely reached state — a fresh
mount, one uploaded page, a draw gesture from (10, 10) to (110, 60)
committed with id 42. -/
theorem size_invariant_reachable_witness :
    SizeInv (handleMouseUp (handleMouseMove (handleMouseDown (setImageLoaded
      (handleImageUpload initSession [(7, "a.png")]) true) (10, 10)) (110, 60)) 42).1 :=
  size_invariant_reachable _
    (Reachable.step (Reachable.step (Reachable.step (Reachable.step
      (Reachable.step Reachable.init
        (Step.upload initSession [(7, "a.png")]))
        (Step.imgLoad _ true))
        (Step.mouseDown _ (10, 10)))
        (Step.mouseMove _ (110, 60)))
        (Step.mouseUp _ 42))

/-- Counterexample to C7 as stated: deleting the selected rectangle (id 5)
removes it from the page but leaves `selectedRectId = some 5` dangling —
the source's `handleDeleteRect` never clears the selection. -/
theorem delete_selected_not_cleared_cex :
    (handleDeleteRect sessionSel 5).selectedRectId = some 5 ∧
    displayedRects (handleDeleteRect sessionSel 5) = [] := by
  decide

/-- C7 (amended): Deleting an id removes every matching rectangle from
the current page (other pages untouched) and leaves `selectedRectId` — and
every other field — unchanged in all cases; so deleting a non-selected
rectangle keeps the selection, but deleting the selected one leaves its
now-dangling id in `selectedRectId` rather than clearing it. -/
theorem delete_rect_selection (s : Session) (id : ℕ) (q : Page)
    (hq : pageAt s.pages s.currentPageIndex = some q) :
    (handleDeleteRect s id).selectedRectId = s.selectedRectId ∧
    pageAt (handleDeleteRect s id).pages s.currentPageIndex =
      some { q with rects := q.rects.filter (fun r => r.id ≠ id) } ∧
    (∀ j, j ≠ s.currentPageIndex →
      pageAt (handleDeleteRect s id).pages j = pageAt s.pages j) ∧
    ∀ r ∈ displayedRects (handleDeleteRect s id), r.id ≠ id := by
  refine ⟨rfl, ?_, ?_, ?_⟩
  · unfold handleDeleteRect
    dsimp only
    rw [pageAt_setRectsAt, if_pos rfl, hq]
    rfl
  · intro j hj
    unfold handleDeleteRect
    dsimp only
    rw [pageAt_setRectsAt, if_neg hj]
  · intro r hr
    have hd : displayedRects (handleDeleteRect s id) =
        q.rects.filter (fun r => r.id ≠ id) := by
      unfold displayedRects handleDeleteRect
      dsimp only
      rw [pageAt_setRectsAt, if_pos rfl, hq]
      rfl
    rw [hd] at hr
    exact of_decide_eq_true (List.mem_filter.mp hr).2

/-- Witness for C7's amended theorem: deleting id 5 with nothing selected
keeps the (empty) selection and empties the page. -/
theorem delete_rect_selection_witness :
    (handleDeleteRect sessionA 5).selectedRectId = none ∧
    pageAt (handleDeleteRect sessionA 5).pages sessionA.currentPageIndex =
      some ⟨1, "a.png", []⟩ := by
  have h := delete_rect_selection sessionA 5 pageA (by decide)
  refine ⟨h.1, ?_⟩
  rw [h.2.1]
  decide

/-- Counterexample to C8 as stated: switching pages mid-gesture clamps the
index and clears the selection but does **not** clear the ephemeral draw
state — `isDrawing` and the ephemeral rectangle survive the switch. -/
theorem page_switch_keeps_ephemeral_cex :
    (handleNextPage sessionMid).currentPageIndex = 1 ∧
    (handleNextPage sessionMid).selectedRectId = none ∧
    (handleNextPage sessionMid).isDrawing = true ∧
    (handleNextPage sessionMid).currentRect = some ⟨1, 2, 3, 4⟩ := by
  decide

/-- C8 (amended): On a non-empty pages sequence with an in-range current
index, both page-switch operations clamp the new index into
`0 ≤ index < pages.length` (`max 0 (i−1)` and `min (length−1) (i+1)`),
clear `selectedRectId`, leave `pages` untouched, and afterwards the
displayed rectangle sequence is the target page's `rects`; the ephemeral
draw state (`isDrawing`, `currentRect`) is *not* cleared but carried over. -/
theorem page_switch_spec (s : Session)
    (h0 : 0 ≤ s.currentPageIndex) (hlt : s.currentPageIndex < (s.pages.length : ℤ)) :
    (0 ≤ (handlePrevPage s).currentPageIndex ∧
      (handlePrevPage s).currentPageIndex < (s.pages.length : ℤ) ∧
      (handlePrevPage s).currentPageIndex = max 0 (s.currentPageIndex - 1) ∧
      (handlePrevPage s).selectedRectId = none ∧
      (handlePrevPage s).pages = s.pages ∧
      (handlePrevPage s).isDrawing = s.isDrawing ∧
      (handlePrevPage s).currentRect = s.currentRect ∧
      ∃ q, pageAt s.pages (handlePrevPage s).currentPageIndex = some q ∧
        displayedRects (handlePrevPage s) = q.rects) ∧
    (0 ≤ (handleNextPage s).currentPageIndex ∧
      (handleNextPage s).currentPageIndex < (s.pages.length : ℤ) ∧
      (handleNextPage s).currentPageIndex =
        min ((s.pages.length : ℤ) - 1) (s.currentPageIndex + 1) ∧
      (handleNextPage s).selectedRectId = none ∧
      (handleNextPage s).pages = s.pages ∧
      (handleNextPage s).isDrawing = s.isDrawing ∧
      (handleNextPage s).currentRect = s.currentRect ∧
      ∃ q, pageAt s.pages (handleNextPage s).currentPageIndex = some q ∧
        displayedRects (handleNextPage s) = q.rects) := by
  have hprev0 : (0 : ℤ) ≤ max 0 (s.currentPageIndex - 1) := le_max_left 0 _
  have hprevlt : max 0 (s.currentPageIndex - 1) < (s.pages.length : ℤ) :=
    max_lt_iff.mpr ⟨by omega, by omega⟩
  have hnext0 : (0 : ℤ) ≤ min ((s.pages.length : ℤ) - 1) (s.currentPageIndex + 1) :=
    le_min (by omega) (by omega)
  have hnextlt : min ((s.pages.length : ℤ) - 1) (s.currentPageIndex + 1) <
      (s.pages.length : ℤ) :=
    lt_of_le_of_lt (min_le_left _ _) (by omega)
  constructor
  · refine ⟨hprev0, hprevlt, rfl, rfl, rfl, rfl, rfl, ?_⟩
    rcases pageAt_valid hprev0 hprevlt with ⟨q, hq⟩
    refine ⟨q, hq, ?_⟩
    have e : displayedRects (handlePrevPage s) =
        (match pageAt s.pages (max 0 (s.currentPageIndex - 1)) with
         | some p => p.rects
         | none => []) := rfl
    rw [e, hq]
  · refine ⟨hnext0, hnextlt, rfl, rfl, rfl, rfl, rfl, ?_⟩
    rcases pageAt_valid hnext0 hnextlt with ⟨q, hq⟩
    refine ⟨q, hq, ?_⟩
    have e : displayedRects (handleNextPage s) =
        (match pageAt s.pages (min ((s.pages.length : ℤ) - 1) (s.currentPageIndex + 1)) with
         | some p => p.rects
         | none => []) := rfl
    rw [e, hq]

/-- Witness for C8's amended theorem at `sessionMid`: the switch lands on
page index 1 with the selection cleared and page B's (empty) rects
displayed. -/
theorem page_switch_spec_witness :
    (handleNextPage sessionMid).currentPageIndex = 1 ∧
    (handleNextPage sessionMid).selectedRectId = none ∧
    displayedRects (handleNextPage sessionMid) = [] := by
  have h := (page_switch_spec sessionMid (by decide) (by decide)).2
  refine ⟨by decide, h.2.2.2.1, ?_⟩
  rcases h.2.2.2.2.2.2.2 with ⟨q, hq, hd⟩
  have hqb : q = pageB := by
    have h2 : pageAt sessionMid.pages (handleNextPage sessionMid).currentPageIndex =
        some pageB := by decide
    rw [h2] at hq
    exact (Option.some_inj.mp hq).symm
  rw [hd, hqb]
  rfl

/-- Rounding by `Math.round` lands within one half of the rounded value. -/
theorem jsRound_near (q : ℚ) : |q - (jsRound q : ℚ)| ≤ 1 / 2 := by
  unfold jsRound
  rw [abs_le]
  constructor
  · have h := Int.floor_le (q + 1 / 2)
    push_cast at h ⊢
    linarith
  · have h := Int.lt_floor_add_one (q + 1 / 2)
    push_cast at h ⊢
    linarith

/-- Counterexample to C9 as stated: the exported document of a one-page
session has no `version`, `exported_at` or `pages` member at all — it is the
single-page `{ image, annotations }` shape. -/
theorem export_json_schema_cex :
    (handleExportJSON sessionD).map (fun d =>
      ((d.lookup "version").isNone, (d.lookup "exported_at").isNone,
       (d.lookup "pages").isNone, (d.lookup "image").isSome)) =
      some (true, true, true, true) := rfl

/-- C9 (amended): The JSON export is a pure transform of the store
snapshot, but of the *current page only* and with the schema
`{ image: file_name, annotations: [{id, x, y, width, height, text}] }` — no
top-level `version`, `exported_at` or `pages` members.  Every exported
geometry field is `Math.round` of the stored rational (hence within 1/2 of
it), and an empty `text` is emitted as `""`, not omitted. -/
theorem export_json_current_page (s : Session) (q : Page)
    (hq : pageAt s.pages s.currentPageIndex = some q) :
    (∃ doc, handleExportJSON s = some doc ∧
      doc.lookup "image" = some (.str q.name) ∧
      doc.lookup "annotations" = some (.arr (q.rects.map exportRectJson)) ∧
      doc.lookup "version" = none ∧
      doc.lookup "exported_at" = none ∧
      doc.lookup "pages" = none) ∧
    ∀ r : Rect,
      (exportRectJson r).lookup "x" = some (.num (jsRound r.x)) ∧
      (exportRectJson r).lookup "y" = some (.num (jsRound r.y)) ∧
      (exportRectJson r).lookup "width" = some (.num (jsRound r.w)) ∧
      (exportRectJson r).lookup "height" = some (.num (jsRound r.h)) ∧
      (exportRectJson r).lookup "text" = some (.str r.text) ∧
      |r.x - (jsRound r.x : ℚ)| ≤ 1 / 2 ∧ |r.y - (jsRound r.y : ℚ)| ≤ 1 / 2 ∧
      |r.w - (jsRound r.w : ℚ)| ≤ 1 / 2 ∧ |r.h - (jsRound r.h : ℚ)| ≤ 1 / 2 := by
  constructor
  · have e : handleExportJSON s =
        some (.obj [("image", .str q.name),
                    ("annotations", .arr (q.rects.map exportRectJson))]) := by
      unfold handleExportJSON
      rw [hq]
    exact ⟨_, e, rfl, rfl, rfl, rfl, rfl⟩
  · intro r
    exact ⟨rfl, rfl, rfl, rfl, rfl, jsRound_near r.x, jsRound_near r.y,
      jsRound_near r.w, jsRound_near r.h⟩

/-- Witness for C9's amended theorem on the spec's Scenario D data:
`x: 10.4 → 10`, `y: 9.6 → 10`, `width: 100.2 → 100`, and the empty text is
present as `""`. -/
theorem export_json_current_page_witness :
    (∃ doc, handleExportJSON sessionD = some doc ∧
      doc.lookup "image" = some (.str "page1.png") ∧ doc.lookup "version" = none) ∧
    (exportRectJson ⟨1, 10.4, 9.6, 100.2, 50, "Hi", false⟩).lookup "x" =
      some (.num 10) ∧
    (exportRectJson ⟨1, 10.4, 9.6, 100.2, 50, "Hi", false⟩).lookup "y" =
      some (.num 10) ∧
    (exportRectJson ⟨1, 10.4, 9.6, 100.2, 50, "Hi", false⟩).lookup "width" =
      some (.num 100) ∧
    (exportRectJson ⟨2, 20, 20, 30, 30, "", false⟩).lookup "text" =
      some (.str "") := by
  have h := export_json_current_page sessionD pageD rfl
  rcases h with ⟨⟨doc, hdoc, him, _, hver, _, _⟩, hr⟩
  have hx : jsRound (10.4 : ℚ) = 10 := by
    unfold jsRound
    rw [Int.floor_eq_iff]
    norm_num
  have hy : jsRound (9.6 : ℚ) = 10 := by
    unfold jsRound
    rw [Int.floor_eq_iff]
    norm_num
  have hw : jsRound (100.2 : ℚ) = 100 := by
    unfold jsRound
    rw [Int.floor_eq_iff]
    norm_num
  refine ⟨⟨doc, hdoc, by rw [him]; rfl, hver⟩, ?_, ?_, ?_, ?_⟩
  · rw [(hr ⟨1, 10.4, 9.6, 100.2, 50, "Hi", false⟩).1]
    dsimp only
    rw [hx]
  · rw [(hr ⟨1, 10.4, 9.6, 100.2, 50, "Hi", false⟩).2.1]
    dsimp only
    rw [hy]
  · rw [(hr ⟨1, 10.4, 9.6, 100.2, 50, "Hi", false⟩).2.2.1]
    dsimp only
    rw [hw]
  · exact (hr ⟨2, 20, 20, 30, 30, "", false⟩).2.2.2.2.1

/-- C10: A pointer-move during a draw gesture only replaces the
ephemeral rectangle with the normalized bounding box of the start point and
the current point; the committed annotation store (`pages`, hence every
rects sequence, geometry, text, id and flag on every page) and the
selection are untouched. -/
theorem drawing_move_frame (s : Session) (pos : ℚ × ℚ) (hd : s.isDrawing = true) :
    (handleMouseMove s pos).pages = s.pages ∧
    (handleMouseMove s pos).selectedRectId = s.selectedRectId ∧
    (handleMouseMove s pos).currentRect = some
      { x := min s.startPos.1 pos.1, y := min s.startPos.2 pos.2,
        w := |pos.1 - s.startPos.1|, h := |pos.2 - s.startPos.2| } := by
  unfold handleMouseMove
  rw [if_pos hd]
  exact ⟨rfl, rfl, rfl⟩

/-- Witness for C10 at a concrete drawing state. -/
theorem drawing_move_frame_witness :
    ({ initSession with isDrawing := true, startPos := (10, 10) } : Session).isDrawing = true ∧
    (handleMouseMove { initSession with isDrawing := true, startPos := (10, 10) }
        (4, 25)).pages = [] ∧
    (handleMouseMove { initSession with isDrawing := true, startPos := (10, 10) }
        (4, 25)).currentRect = some { x := 4, y := 10, w := 6, h := 15 } := by
  refine ⟨rfl, ?_, ?_⟩
  · exact (drawing_move_frame { initSession with isDrawing := true, startPos := (10, 10) }
      (4, 25) rfl).1
  · rw [(drawing_move_frame { initSession with isDrawing := true, startPos := (10, 10) }
      (4, 25) rfl).2.2]
    norm_num

/-- C4: Writes addressed to an id not present on the targeted page are
silent no-ops: a text edit whose id is absent from the current page leaves
the session unchanged, an OCR completion whose target id is absent from the
originating page leaves `pages` unchanged (no crash, no resurrection), and
the dispatch-time `isOcrRunning := true` write is likewise a no-op for an
absent id. -/
theorem missing_id_writes_are_noops (s : Session) (id : ℕ) (txt : String)
    (pages : List Page) (i : ℤ) (rid : ℕ) (out : OcrOutcome)
    (hcur : ∀ p, pageAt s.pages s.currentPageIndex = some p → ∀ r ∈ p.rects, r.id ≠ id)
    (horig : ∀ p, pageAt pages i = some p → ∀ r ∈ p.rects, r.id ≠ rid) :
    handleTextChange s id txt = s ∧
    runOcrComplete pages i rid out = pages ∧
    ∀ rect : Rect, rect.id = id → runOcrStart s rect = s := by
  refine ⟨?_, ?_, ?_⟩
  · unfold handleTextChange
    rw [setRectsAt_noop]
    intro q hq
    refine map_eq_self_of_mem ?_
    intro r hr
    rw [if_neg (hcur q hq r hr)]
  · unfold runOcrComplete
    refine setRectsAt_noop ?_
    intro q hq
    refine map_eq_self_of_mem ?_
    intro r hr
    unfold ocrWrite
    rw [if_neg (horig q hq r hr)]
  · intro rect hrect
    unfold runOcrStart
    split
    · rw [setRectsAt_noop]
      intro q hq
      refine map_eq_self_of_mem ?_
      intro r hr
      rw [if_neg (by rw [hrect]; exact hcur q hq r hr)]
    · rfl

/-- Witness for C4: id 99 is absent from the only page, so the text edit
and a stale completion both leave the state alone. -/
theorem missing_id_writes_are_noops_witness :
    handleTextChange sessionA 99 "zz" = sessionA ∧
    runOcrComplete [pageA] 0 99 .failure = [pageA] := by
  have h := missing_id_writes_are_noops sessionA 99 "zz" [pageA] 0 99 .failure
    (by decide) (by decide)
  exact ⟨h.1, h.2.1⟩

/-- Dispatch `runOcrStart` writes nothing but the `isOcrRunning` flags of the current
page, and only when the engine, the toggle and the image are all available. -/
theorem runOcrStart_fields (s : Session) (r : Rect) :
    (runOcrStart s r).selectedRectId = s.selectedRectId ∧
    (runOcrStart s r).currentRect = s.currentRect ∧
    (runOcrStart s r).isDrawing = s.isDrawing ∧
    (runOcrStart s r).currentPageIndex = s.currentPageIndex ∧
    ((s.tesseractLoaded && s.isOcrEnabled && s.hasImage) = true →
      (runOcrStart s r).pages = setRectsAt s.pages s.currentPageIndex
        (List.map fun x => if x.id = r.id then { x with isOcrRunning := true } else x)) ∧
    ((s.tesseractLoaded && s.isOcrEnabled && s.hasImage) = false →
      (runOcrStart s r).pages = s.pages) := by
  unfold runOcrStart
  cases hb : s.tesseractLoaded && s.isOcrEnabled && s.hasImage with
  | true =>
    rw [if_pos rfl]
    exact ⟨rfl, rfl, rfl, rfl, fun _ => rfl, fun hf => Bool.noConfusion hf⟩
  | false =>
    rw [if_neg Bool.false_ne_true]
    exact ⟨rfl, rfl, rfl, rfl, fun ht => Bool.noConfusion ht, fun _ => rfl⟩

/-- C1 (amended): When pointer-up ends a draw gesture: if the ephemeral
rectangle satisfies `w > 5 ∧ h > 5` strictly, a new Rectangle with the fresh
id, empty text and `isOcrRunning = false` is appended to the current page's
rects and handed to `runOcr` — which marks it running exactly when OCR is
enabled, the engine is loaded and an image is present; the selection is
*not* moved to the new rectangle (it stays as it was, i.e. cleared since
pointer-down).  Otherwise nothing is committed and the annotation store is
unchanged. -/
theorem draw_commit_behavior (s : Session) (now : ℕ) (c : EphemRect) (q : Page)
    (hd : s.isDrawing = true) (hc : s.currentRect = some c)
    (hq : pageAt s.pages s.currentPageIndex = some q) :
    ((c.w > 5 ∧ c.h > 5) →
      (handleMouseUp s now).2 = some ⟨now, c.x, c.y, c.w, c.h, "", false⟩ ∧
      (handleMouseUp s now).1.selectedRectId = s.selectedRectId ∧
      (handleMouseUp s now).1.currentRect = none ∧
      (handleMouseUp s now).1.isDrawing = false ∧
      ((s.tesseractLoaded && s.isOcrEnabled && s.hasImage) = true →
        pageAt (handleMouseUp s now).1.pages s.currentPageIndex =
          some { q with rects := (List.map
              (fun r : Rect => if r.id = now then { r with isOcrRunning := true } else r)
              (q.rects ++ [⟨now, c.x, c.y, c.w, c.h, "", false⟩])) }) ∧
      ((s.tesseractLoaded && s.isOcrEnabled && s.hasImage) = false →
        pageAt (handleMouseUp s now).1.pages s.currentPageIndex =
          some { q with rects := q.rects ++ [⟨now, c.x, c.y, c.w, c.h, "", false⟩] })) ∧
    (¬(c.w > 5 ∧ c.h > 5) →
      (handleMouseUp s now).1 = { s with isDrawing := false, currentRect := none } ∧
      (handleMouseUp s now).2 = none) := by
  constructor
  · intro h5
    have e : handleMouseUp s now =
        (runOcrStart
          { s with
            isDrawing := false,
            pages := setRectsAt s.pages s.currentPageIndex
              (fun rs => rs ++ [⟨now, c.x, c.y, c.w, c.h, "", false⟩]),
            currentRect := none } ⟨now, c.x, c.y, c.w, c.h, "", false⟩,
         some ⟨now, c.x, c.y, c.w, c.h, "", false⟩) := by
      simp only [handleMouseUp, hd, hc, if_true]
      rw [if_pos h5]
    have e1 : (handleMouseUp s now).1 =
        runOcrStart
          { s with
            isDrawing := false,
            pages := setRectsAt s.pages s.currentPageIndex
              (fun rs => rs ++ [⟨now, c.x, c.y, c.w, c.h, "", false⟩]),
            currentRect := none } ⟨now, c.x, c.y, c.w, c.h, "", false⟩ := by
      rw [e]
    have e2 : (handleMouseUp s now).2 = some ⟨now, c.x, c.y, c.w, c.h, "", false⟩ := by
      rw [e]
    refine ⟨e2, ?_, ?_, ?_, ?_, ?_⟩
    · rw [e1]
      exact (runOcrStart_fields _ _).1
    · rw [e1]
      exact (runOcrStart_fields _ _).2.1
    · rw [e1]
      exact (runOcrStart_fields _ _).2.2.1
    · intro hg
      rw [e1, (runOcrStart_fields
        { s with
          isDrawing := false,
          pages := setRectsAt s.pages s.currentPageIndex
            (fun rs => rs ++ [⟨now, c.x, c.y, c.w, c.h, "", false⟩]),
          currentRect := none } ⟨now, c.x, c.y, c.w, c.h, "", false⟩).2.2.2.2.1 hg]
      dsimp only
      rw [pageAt_setRectsAt, if_pos rfl, pageAt_setRectsAt, if_pos rfl, hq]
      rfl
    · intro hg
      rw [e1, (runOcrStart_fields
        { s with
          isDrawing := false,
          pages := setRectsAt s.pages s.currentPageIndex
            (fun rs => rs ++ [⟨now, c.x, c.y, c.w, c.h, "", false⟩]),
          currentRect := none } ⟨now, c.x, c.y, c.w, c.h, "", false⟩).2.2.2.2.2 hg]
      dsimp only
      rw [pageAt_setRectsAt, if_pos rfl, hq]
      rfl
  · intro h5
    have e : handleMouseUp s now =
        ({ s with isDrawing := false, currentRect := none }, none) := by
      simp only [handleMouseUp, hd, hc, if_true]
      rw [if_neg h5]
    exact ⟨by rw [e], by rw [e]⟩

/-- Counterexample to C1 as stated: at `sessionDraw` (ephemeral 20×30, OCR
on, engine loaded) pointer-up commits the rectangle with fresh id 42, yet
the selection is `none`, not the new rectangle — the committed rectangle
does not become the selected one. -/
theorem draw_commit_no_select_cex :
    (displayedRects (handleMouseUp sessionDraw 42).1).map Rect.id = [42] ∧
    (handleMouseUp sessionDraw 42).1.selectedRectId = none := by
  decide

/-- Witness for C1's amended theorem at `sessionDraw`: the commit appends
id 42 with the dispatch-time running flag set, and returns it to `runOcr`. -/
theorem draw_commit_behavior_witness :
    pageAt (handleMouseUp sessionDraw 42).1.pages sessionDraw.currentPageIndex =
      some ⟨1, "a.png", [⟨42, 10, 10, 20, 30, "", true⟩]⟩ ∧
    (handleMouseUp sessionDraw 42).2 = some ⟨42, 10, 10, 20, 30, "", false⟩ := by
  have h := (draw_commit_behavior sessionDraw 42 ⟨10, 10, 20, 30⟩ ⟨1, "a.png", []⟩
    rfl rfl (by decide)).1 (by exact ⟨by decide, by decide⟩)
  refine ⟨?_, h.1⟩
  rw [h.2.2.2.2.1 rfl]
  decide

/-- C5: An OCR completion for a rectangle that still exists on the
originating page performs exactly one of two writes, both clearing the
running flag: on success the trimmed recognized text, on failure the
sentinel `"Error"`; id and geometry are untouched, as is every rectangle
with a different id. -/
theorem ocr_completion_outcomes (pages : List Page) (i : ℤ) (rid : ℕ)
    (out : OcrOutcome) (q : Page) (hq : pageAt pages i = some q) :
    pageAt (runOcrComplete pages i rid out) i =
      some { q with rects := q.rects.map (ocrWrite rid out) } ∧
    ∀ r : Rect,
      (r.id = rid →
        (ocrWrite rid out r).isOcrRunning = false ∧
        (ocrWrite rid out r).text =
          (match out with
           | .success raw => raw.trim
           | .failure => "Error") ∧
        (ocrWrite rid out r).id = r.id ∧ (ocrWrite rid out r).x = r.x ∧
        (ocrWrite rid out r).y = r.y ∧ (ocrWrite rid out r).w = r.w ∧
        (ocrWrite rid out r).h = r.h) ∧
      (r.id ≠ rid → ocrWrite rid out r = r) := by
  constructor
  · unfold runOcrComplete
    rw [pageAt_setRectsAt, if_pos rfl, hq]
    rfl
  · intro r
    constructor
    · intro hrid
      unfold ocrWrite
      rw [if_pos hrid]
      cases out with
      | success raw => exact ⟨rfl, rfl, rfl, rfl, rfl, rfl, rfl⟩
      | failure => exact ⟨rfl, rfl, rfl, rfl, rfl, rfl, rfl⟩
    · intro hrid
      unfold ocrWrite
      rw [if_neg hrid]

/-- Witness for C5: a concrete failure completion writes `"Error"` into the
target rectangle and clears its running flag. -/
theorem ocr_completion_outcomes_witness :
    pageAt (runOcrComplete [pageRun] 0 5 .failure) 0 =
      some ⟨1, "a.png", [⟨5, 10, 10, 100, 50, "Error", false⟩]⟩ := by
  rw [(ocr_completion_outcomes [pageRun] 0 5 .failure pageRun (by decide)).1]
  decide

/-- A successful reverse scan returns a rectangle that contains the point
and is topmost: every rectangle drawn after it misses the point. -/
theorem topmostHit_some {p : ℚ × ℚ} {rects : List Rect} {r : Rect}
    (h : topmostHit p rects = some r) :
    containsPoint r p = true ∧
    ∃ l1 l2, rects = l1 ++ r :: l2 ∧ ∀ x ∈ l2, containsPoint x p = false := by
  unfold topmostHit at h
  rcases List.find?_eq_some.mp h with ⟨hpr, as, bs, hsplit, hall⟩
  refine ⟨hpr, bs.reverse, as.reverse, ?_, ?_⟩
  · have h2 := congrArg List.reverse hsplit
    rw [List.reverse_reverse] at h2
    rw [h2, List.reverse_append, List.reverse_cons, List.append_assoc,
      List.singleton_append]
  · intro x hx
    have hx' : x ∈ as := List.mem_reverse.mp hx
    have := hall x hx'
    simpa using this

/-- An empty reverse scan means no rectangle contains the point. -/
theorem topmostHit_none {p : ℚ × ℚ} {rects : List Rect}
    (h : topmostHit p rects = none) : ∀ r ∈ rects, containsPoint r p = false := by
  unfold topmostHit at h
  intro r hr
  have := List.find?_eq_none.mp h r (List.mem_reverse.mpr hr)
  simpa using this

/-- C3: (Modelled from the spec: the hit-testing iteration of the
repository is absent from `src/`.)  A pointer-down in `IDLE` dispatches in
the spec's priority order: a handle hit on the selected rectangle enters
`RESIZING` recording the handle; otherwise, if some rectangle contains the
point, the machine enters `MOVING` on the topmost such rectangle (the last
in creation order among those containing the point), selecting it and
recording `dragOffset = point − origin`; only when neither applies does it
enter `DRAWING`, clearing the selection and recording the start point. -/
theorem idle_pointer_down_dispatch (st : IState) (p : ℚ × ℚ) (scale : ℚ)
    (hidle : st.mode = .idle) :
    (∀ h : Handle, (selectedRect st).bind (fun sel => handleHit p sel scale) = some h →
      specMouseDown st p scale = { st with mode := .resizing h }) ∧
    ((selectedRect st).bind (fun sel => handleHit p sel scale) = none →
      (∀ r : Rect, topmostHit p st.rects = some r →
        specMouseDown st p scale =
          { st with mode := .moving (p.1 - r.x, p.2 - r.y), selectedRectId := some r.id } ∧
        containsPoint r p = true ∧
        ∃ l1 l2, st.rects = l1 ++ r :: l2 ∧ ∀ x ∈ l2, containsPoint x p = false) ∧
      (topmostHit p st.rects = none →
        specMouseDown st p scale =
          { st with mode := .drawing, selectedRectId := none, startPos := p } ∧
        ∀ r ∈ st.rects, containsPoint r p = false)) := by
  refine ⟨?_, ?_⟩
  · intro h hsel
    simp only [specMouseDown, if_pos hidle, hsel]
  · intro hsel
    refine ⟨?_, ?_⟩
    · intro r htop
      refine ⟨?_, topmostHit_some htop⟩
      simp only [specMouseDown, if_pos hidle, hsel, htop]
    · intro htop
      refine ⟨?_, topmostHit_none htop⟩
      simp only [specMouseDown, if_pos hidle, hsel, htop]

/-- Witness for C3: with nothing selected and the point (50, 30) inside the
only rectangle, pointer-down enters `MOVING` on it with the recorded drag
offset `point − origin` and selects it. -/
theorem idle_pointer_down_dispatch_witness :
    (specMouseDown istateA (50, 30) 1).selectedRectId = some 5 ∧
    (specMouseDown istateA (50, 30) 1).mode = .moving (50 - 10, 30 - 10) := by
  have hcontains : containsPoint ⟨5, 10, 10, 100, 50, "hi", false⟩ (50, 30) = true := by
    unfold containsPoint
    rw [decide_eq_true_eq]
    norm_num
  have htop : topmostHit (50, 30) istateA.rects =
      some ⟨5, 10, 10, 100, 50, "hi", false⟩ := by
    unfold topmostHit
    have hrev : istateA.rects.reverse = [⟨5, 10, 10, 100, 50, "hi", false⟩] := rfl
    rw [hrev]
    exact @List.find?_cons_of_pos Rect (fun r => containsPoint r (50, 30))
      ⟨5, 10, 10, 100, 50, "hi", false⟩ [] hcontains
  have h := ((idle_pointer_down_dispatch istateA (50, 30) 1 rfl).2 rfl).1
    ⟨5, 10, 10, 100, 50, "hi", false⟩ htop
  rw [h.1]
  exact ⟨rfl, rfl⟩

/-- C6: A completion is scoped to the page index captured at dispatch
time: whatever user events (page switches included) run between dispatch and
completion, the slot still holds the originating page (same identity), the
completion rewrites only that page's rects, and every other page is left
exactly as it was. -/
theorem ocr_completion_page_scoped (s0 s1 : Session) (i : ℤ) (a : Page)
    (hsteps : Relation.ReflTransGen Step s0 s1)
    (ha : pageAt s0.pages i = some a) (rid : ℕ) (out : OcrOutcome) :
    (∃ q, pageAt s1.pages i = some q ∧ q.id = a.id ∧ q.name = a.name ∧
      pageAt (runOcrComplete s1.pages i rid out) i =
        some { q with rects := q.rects.map (ocrWrite rid out) }) ∧
    ∀ j : ℤ, j ≠ i → pageAt (runOcrComplete s1.pages i rid out) j = pageAt s1.pages j := by
  constructor
  · rcases steps_pageAt_mono hsteps i a ha with ⟨q, hq, hid, hname⟩
    refine ⟨q, hq, hid, hname, ?_⟩
    unfold runOcrComplete
    rw [pageAt_setRectsAt, if_pos rfl, hq]
    rfl
  · intro j hj
    unfold runOcrComplete
    rw [pageAt_setRectsAt, if_neg hj]

/-- Witness for C6: dispatch on page index 0 of a two-page store, switch to
page 1, complete with failure — page 0 receives the write, page 1 is
untouched. -/
theorem ocr_completion_page_scoped_witness :
    (∃ q, pageAt (handleNextPage sessionTwo).pages 0 = some q ∧
      q.id = pageRun.id ∧ q.name = pageRun.name ∧
      pageAt (runOcrComplete (handleNextPage sessionTwo).pages 0 5 .failure) 0 =
        some { q with rects := q.rects.map (ocrWrite 5 .failure) }) ∧
    ∀ j : ℤ, j ≠ 0 →
      pageAt (runOcrComplete (handleNextPage sessionTwo).pages 0 5 .failure) j =
        pageAt (handleNextPage sessionTwo).pages j :=
  ocr_completion_page_scoped sessionTwo (handleNextPage sessionTwo) 0 pageRun
    (Relation.ReflTransGen.single (Step.nextPage sessionTwo))
    (by decide) 5 .failure

end OcrTool
